import Mathlib

/-!
Verification development for the Ktop repository (main.go): a CLI that
fetches Kubernetes node/pod metrics and prints them as bordered text
tables.  Definitions below are shallow embeddings of the Go source:
integers (`MilliValue`, `Value`) become `Int`, byte quantities fed to
`units.BytesSize` become `ℚ` (the `float64` operations involved —
conversion of an `int64` below `2^53` and repeated division by `1024` —
are exact, so rational arithmetic coincides with the float semantics on
the program's domain), fallible API calls become `Except`/`Option`
values supplied as inputs.
-/

namespace Ktop

/-- The constant `SpotTolerationKey` from main.go. -/
def SpotTolerationKey : String := "kubernetes.azure.com/scalesetpriority"

/-- The constant `SpotTolerationValue` from main.go. -/
def SpotTolerationValue : String := "spot"

/-! ### The go-units `BytesSize` formatter

`units.BytesSize(f)` is `CustomSize("%.4g%s", f, 1024.0, binaryAbbrs)`:
divide by 1024 while the value is ≥ 1024 (at most 8 times), then print
the mantissa with Go's `%.4g` (4 significant digits, trailing zeros
removed, fixed notation while the decimal exponent is below 4 — which
holds for every mantissa the loop can produce from an `int64` byte
count) followed by the chosen unit abbreviation. -/

/-- The binary unit abbreviations of go-units. -/
def binaryAbbrs : List String :=
  ["B", "KiB", "MiB", "GiB", "TiB", "PiB", "EiB", "ZiB", "YiB"]

/-- The division loop of go-units `getSizeAndUnit`: divide by 1024 while
the value is at least 1024 and fewer than 8 divisions (the unit limit)
have happened; returns the mantissa and the unit index. -/
def sizeLoop : Nat → ℚ → ℚ × Nat
  | 0, q => (q, 0)
  | fuel + 1, q =>
    if 1024 ≤ q then
      let p := sizeLoop fuel (q / 1024)
      (p.1, p.2 + 1)
    else (q, 0)

/-- go-units `getSizeAndUnit` with base 1024: at most
`len(binaryAbbrs) - 1 = 8` divisions. -/
def getSizeAndUnit (q : ℚ) : ℚ × Nat := sizeLoop 8 q

/-- Largest decimal exponent `e` (searched up to 29) with `10^e ≤ q`;
0 when `q < 1`. -/
def decExpQ (q : ℚ) : Nat :=
  (List.range 30).foldl (fun acc e => if (10 : ℚ) ^ e ≤ q then e else acc) 0

/-- Round to the nearest integer, ties to even — the rounding Go's
`strconv` decimal conversion applies to the exact value when printing
with a fixed number of significant digits. -/
def rneQ (q : ℚ) : Int :=
  let f := q.floor
  let r := q - (f : ℚ)
  if r < 1 / 2 then f
  else if 1 / 2 < r then f + 1
  else if f % 2 = 0 then f else f + 1

/-- Drop trailing '0' characters (Go `%g` removes trailing zeros). -/
def stripTrailingZeros (s : String) : String :=
  String.mk ((s.toList.reverse.dropWhile (fun c => c == '0')).reverse)

/-- Left-pad a digit string with zeros to `d` characters. -/
def padZeros (d : Nat) (s : String) : String :=
  String.mk (List.replicate (d - s.length) '0') ++ s

/-- Print the value `m / 10 ^ (3 - e)` (the 4-significant-digit rounding
`m` of a value with decimal exponent `e < 4`) in fixed notation with
trailing zeros removed, as Go `%.4g` does in its fixed-notation regime. -/
def formatFixed (m : Int) (e : Nat) : String :=
  if 3 ≤ e then toString (m * 10 ^ (e - 3))
  else
    let d := 3 - e
    let ip := m / 10 ^ d
    let fp := m % 10 ^ d
    let frac := stripTrailingZeros (padZeros d (toString fp))
    if frac = "" then toString ip else toString ip ++ "." ++ frac

/-- Go `%.4g` on a nonnegative value in the fixed-notation regime
(decimal exponent of the rounded value below 4, which covers every
mantissa `getSizeAndUnit` yields from an `int64` byte count): round to
4 significant digits, print without trailing zeros. -/
def formatG4Core (q : ℚ) : String :=
  if q = 0 then "0"
  else
    let e0 := decExpQ q
    let m0 := rneQ (q * 10 ^ 3 / 10 ^ e0)
    let me := if m0 = 10000 then ((1000 : Int), e0 + 1) else (m0, e0)
    formatFixed me.1 me.2

/-- Go `%.4g` with the sign handled as Go prints it. -/
def formatG4 (q : ℚ) : String :=
  if q < 0 then "-" ++ formatG4Core (-q) else formatG4Core q

/-- go-units `BytesSize`: mantissa formatted with `%.4g`, immediately
followed by the binary unit abbreviation. -/
def BytesSize (q : ℚ) : String :=
  let p := getSizeAndUnit q
  formatG4 p.1 ++ binaryAbbrs.getD p.2 ""

/-! ### Data model (corev1 / metrics objects, restricted to the fields
main.go reads) -/

/-- A `corev1.ResourceList` restricted to the two lookups main.go
performs: `.Cpu().MilliValue()` and `.Memory().Value()`.  An absent
entry yields the zero quantity, as the Kubernetes accessors do. -/
structure ResourceList where
  cpuMilli : Option Int
  memBytes : Option Int
deriving DecidableEq

/-- The lookup `requests.Cpu().MilliValue()`: zero when absent. -/
def ResourceList.cpuVal (r : ResourceList) : Int := r.cpuMilli.getD 0

/-- The lookup `requests.Memory().Value()`: zero when absent. -/
def ResourceList.memVal (r : ResourceList) : Int := r.memBytes.getD 0

/-- An empty `ResourceList` (no declared cpu or memory). -/
def ResourceList.empty : ResourceList := ⟨none, none⟩

/-- A `corev1.Container` of a pod spec, restricted to the fields read. -/
structure Container where
  name : String
  requests : ResourceList
  limits : ResourceList
deriving DecidableEq

/-- The Go zero value `var containerSpec corev1.Container`: empty name,
empty resource lists. -/
instance : Inhabited Container :=
  ⟨⟨"", ResourceList.empty, ResourceList.empty⟩⟩

/-- A `corev1.Toleration`, restricted to the key and value fields. -/
structure Toleration where
  key : String
  value : String
deriving DecidableEq

/-- A `corev1.Pod`, restricted to the fields main.go reads. -/
structure Pod where
  name : String
  ns : String
  containers : List Container
  tolerations : List Toleration
deriving DecidableEq

/-- One entry of `podMetrics.Containers`: a container usage sample. -/
structure ContainerUsage where
  name : String
  cpuMilli : Int
  memBytes : Int
deriving DecidableEq

/-- A `corev1.Node`, restricted to the capacity/allocatable quantities
main.go reads in `printNodeMetrics`. -/
structure Node where
  name : String
  capacityCpuMilli : Int
  allocatableCpuMilli : Int
  capacityMemBytes : Int
  allocatableMemBytes : Int
deriving DecidableEq

/-! ### Resource sampler (`printPodMetrics`, lines 193-268) -/

/-- The `"%d m"` millicore formatting used for every CPU cell. -/
def fmtMilli (n : Int) : String := toString n ++ " m"

/-- The spot-toleration loop of main.go (lines 236-244): scan the pod's
tolerations; on the first toleration whose key and value both match the
spot marker set `"true"` and stop, otherwise leave the empty string. -/
def spotLoop : List Toleration → String
  | [] => ""
  | t :: ts =>
    if t.key == SpotTolerationKey && t.value == SpotTolerationValue
    then "true" else spotLoop ts

/-- The container-spec lookup of main.go (lines 212-218): the first
container of the pod spec with the matching name, or the Go zero value
(whose name is `""`) when none matches. -/
def findContainerSpec (cs : List Container) (n : String) : Container :=
  (cs.find? (fun c => c.name == n)).getD default

/-- One `ContainerSample`: the data of one detail row of the pod table,
before string formatting. -/
structure Sample where
  podName : String
  containerName : String
  cpuUsage : Int
  cpuRequest : Int
  cpuLimit : Int
  memUsage : Int
  memRequest : Int
  memLimit : Int
  spotToleration : String
deriving DecidableEq

/-- The body of the per-container loop (lines 205-258): look the usage
entry's name up in the pod spec; when the resulting container spec has
the empty name (the not-found zero value) the entry is skipped
(`continue`), otherwise one sample is produced from the usage quantities
and the matched spec's requests/limits. -/
def sampleOf (pod : Pod) (u : ContainerUsage) : Option Sample :=
  let containerSpec := findContainerSpec pod.containers u.name
  if containerSpec.name == "" then none
  else some
    { podName := pod.name
      containerName := u.name
      cpuUsage := u.cpuMilli
      cpuRequest := containerSpec.requests.cpuVal
      cpuLimit := containerSpec.limits.cpuVal
      memUsage := u.memBytes
      memRequest := containerSpec.requests.memVal
      memLimit := containerSpec.limits.memVal
      spotToleration := spotLoop pod.tolerations }

/-- All samples of one pod whose metrics fetch succeeded: the usage
entries in order, skipping the unmatched ones. -/
def podSamples (pod : Pod) (containers : List ContainerUsage) : List Sample :=
  containers.filterMap (sampleOf pod)

/-- One pod together with the outcome of its usage-metrics fetch
(`metricsClientset...Get`, line 198): either the metric's container
usage list or the fetch error. -/
structure PodItem where
  pod : Pod
  metricsResult : Except String (List ContainerUsage)

/-- The per-pod loop of `printPodMetrics` (lines 193-268): a failed
fetch appends its error and `continue`s; a successful fetch contributes
its matched container samples.  Returns the samples (pod order, then
container order) and the accumulated fetch errors (pod order). -/
def podLoop : List PodItem → List Sample × List String
  | [] => ([], [])
  | item :: rest =>
    match item.metricsResult with
    | Except.error e =>
      let p := podLoop rest
      (p.1, e :: p.2)
    | Except.ok containers =>
      let p := podLoop rest
      (podSamples item.pod containers ++ p.1, p.2)

/-! ### Aggregator (`printPodMetrics` accumulators and rows) -/

/-- The six running totals of `printPodMetrics` (lines 185-186). -/
structure Totals where
  cpuUsage : Int
  cpuRequest : Int
  cpuLimit : Int
  memUsage : Int
  memRequest : Int
  memLimit : Int
deriving DecidableEq

/-- All-zero totals (the Go zero values of the accumulators). -/
def Totals.zero : Totals := ⟨0, 0, 0, 0, 0, 0⟩

/-- The `+=` block of lines 261-266 for one sample. -/
def addSample (t : Totals) (s : Sample) : Totals :=
  ⟨t.cpuUsage + s.cpuUsage, t.cpuRequest + s.cpuRequest,
   t.cpuLimit + s.cpuLimit, t.memUsage + s.memUsage,
   t.memRequest + s.memRequest, t.memLimit + s.memLimit⟩

/-- The totals accumulated over a sample sequence. -/
def nodeTotal (samples : List Sample) : Totals :=
  samples.foldl addSample Totals.zero

/-- One detail data row (lines 247-257). -/
def sampleRow (s : Sample) : List String :=
  [s.podName, s.containerName, fmtMilli s.cpuUsage, fmtMilli s.cpuRequest,
   fmtMilli s.cpuLimit, BytesSize (s.memUsage : ℚ),
   BytesSize (s.memRequest : ℚ), BytesSize (s.memLimit : ℚ),
   s.spotToleration]

/-- The trailing `Total` row of the detail table (lines 279-289). -/
def totalPodsRow (t : Totals) : List String :=
  ["Total", "", fmtMilli t.cpuUsage, fmtMilli t.cpuRequest,
   fmtMilli t.cpuLimit, BytesSize (t.memUsage : ℚ),
   BytesSize (t.memRequest : ℚ), BytesSize (t.memLimit : ℚ), ""]

/-- The single data row of the condensed totals table (lines 294-300). -/
def condensedTotalRow (nodeNm : String) (t : Totals) : List String :=
  [nodeNm, fmtMilli t.cpuUsage, fmtMilli t.cpuRequest,
   BytesSize (t.memUsage : ℚ), BytesSize (t.memRequest : ℚ)]

/-- The detail table header (line 189). -/
def podHeader (nodeNm : String) : List String :=
  ["Pods on " ++ nodeNm, "Container", "CPU Usage", "CPU Request",
   "CPU Limit", "Mem Usage", "Mem Request", "Mem Limit", "Spot Tolerance"]

/-- The condensed totals table header (line 190). -/
def condensedHeader : List String :=
  ["Pod total capacity on Node", "CPU Usage", "CPU Request", "Mem Usage",
   "Mem Request"]

/-- The outcome of the pod-listing call for one node (lines 166-171):
the possible listing error plus the pod list value the call returned
(the typed client always returns a list object; it is empty when the
call failed), each pod bundled with its later metrics-fetch outcome. -/
structure PodListResult where
  listErr : Option String
  items : List PodItem

/-- The function `printPodMetrics` as a table-and-errors function: append the listing
error if any, run the per-pod loop, build both tables, and return the
one selected by whether a node name was requested (`nodeName == ""`,
lines 303-314) together with the errors this call appended. -/
def printPodMetricsTable (requested : String) (nodeNm : String)
    (pl : PodListResult) : List (List String) × List String :=
  let errs0 := match pl.listErr with
    | some e => [e]
    | none => []
  let p := podLoop pl.items
  let t := nodeTotal p.1
  let podTableData :=
    podHeader nodeNm :: (p.1.map sampleRow ++ [totalPodsRow t])
  let totalTableData := [condensedHeader, condensedTotalRow nodeNm t]
  (if requested == "" then totalTableData else podTableData, errs0 ++ p.2)

/-- The node summary row of `printNodeMetrics` (lines 139-151). -/
def nodeRow (n : Node) : List String :=
  [n.name, fmtMilli n.capacityCpuMilli, fmtMilli n.allocatableCpuMilli,
   BytesSize (n.capacityMemBytes : ℚ), BytesSize (n.allocatableMemBytes : ℚ)]

/-- The node summary table of `printNodeMetrics` (lines 133-152). -/
def nodeTableData (n : Node) : List (List String) :=
  [["Node", "CPU Capacity", "CPU Allocatable", "Mem Capacity",
    "Mem Allocatable"], nodeRow n]

/-! ### Table renderer (`loadFunctions` / `runFunctions`) -/

/-- One step of the width scan (lines 346-353): raise each width to the
cell's length.  Go indexes `columnWidths[i]`; rows are never longer than
the header in any table the program builds. -/
def updateWidths : List Nat → List String → List Nat
  | ws, [] => ws
  | [], _ => []
  | w :: ws, c :: cs => max w c.length :: updateWidths ws cs

/-- The `columnWidths` computation of `loadFunctions` (lines 345-353): start from zero
widths sized by the header row, scan every row (header included).
Cell lengths are code points; Go measures bytes, which coincides on the
ASCII cell content the program produces. -/
def columnWidths (tableData : List (List String)) : List Nat :=
  match tableData with
  | [] => []
  | hdr :: _ => tableData.foldl updateWidths (List.replicate hdr.length 0)

/-- The maximum printed length of the cells of column `i` over all rows
(missing cells count as empty).  The reference value `columnWidths` is
compared against. -/
def maxColLen (tableData : List (List String)) (i : Nat) : Nat :=
  (tableData.map (fun r => (r.getD i "").length)).foldl max 0

/-- Go `%-*s`: right-pad with spaces to the column width (no truncation
— cells at the maximum keep their full length). -/
def padRight (s : String) (w : Nat) : String :=
  s ++ String.mk (List.replicate (w - s.length) ' ')

/-- The visible text a data row prints for one cell between two `│`
border glyphs: a space, the padded cell, a space (line 364). -/
def cellBlock (w : Nat) (c : String) : String :=
  " " ++ padRight c w ++ " "

/-- One border segment: `w + 2` box-drawing dashes (lines 375, 387, 399). -/
def borderSeg (w : Nat) : String :=
  String.mk (List.replicate (w + 2) '─')

/-- The light-gray background escape of line 361. -/
def grayBg : String := "\x1b[48;5;238m"

/-- The style reset escape of line 364. -/
def resetCode : String := "\x1b[0m"

/-- The full text of one printed data row, colour escapes included
(`printDataRow`, lines 356-369): `alternate = true` means no background
colour, `false` means the gray background. -/
def renderDataRow (ws : List Nat) (alternate : Bool) (row : List String) :
    String :=
  "│" ++ String.join ((row.zip ws).map (fun p =>
    (if alternate then "" else grayBg) ++ cellBlock p.2 p.1
      ++ resetCode ++ "│"))

/-- A full border line from left glyph, junction glyph and right glyph
(lines 372-405): segments of `w + 2` dashes joined by the junction. -/
def borderLine (l j r : String) (ws : List Nat) : String :=
  l ++ String.intercalate j (ws.map borderSeg) ++ r

/-- The sequence of `printDataRow` calls a table render performs with
the value of `alternateColor` at each call: the closure starts at `true`
(line 341) and flips after every call (line 367). -/
def renderRows : Bool → List (List String) → List (Bool × List String)
  | _, [] => []
  | b, r :: rs => (b, r) :: renderRows (!b) rs

/-- Because `runFunctions` prints the header row and then every data row through
the same `printDataRow` closure (lines 326-334), so one render call
produces this flagged row sequence, starting from the fresh
`alternateColor = true` of its own `loadFunctions` call. -/
def tableRowFlags (td : List (List String)) : List (Bool × List String) :=
  renderRows true td

/-- Modelled from the spec: the flag sequence the spec describes — the
boolean "toggles after every data row (not the header)", so the header
is printed with the initial flag and the first data row is printed with
that same initial flag.  To be compared with `tableRowFlags`. -/
def specRowFlags (td : List (List String)) : List (Bool × List String) :=
  match td with
  | [] => []
  | h :: rows => (true, h) :: renderRows true rows

/-! ### Report driver (`main`, lines 100-127) -/

/-- The per-node input of one report: the node object, and the outcome
of the pod-listing and per-pod metric fetches for it. -/
structure NodeInput where
  node : Node
  podList : PodListResult

/-- One block of program output: a rendered table, or the final
numbered error report. -/
inductive Block where
  | table : List (List String) → Block
  | errorReport : List String → Block

/-- Whether a block is a rendered table (as opposed to the final error
report). -/
def Block.isTable : Block → Bool
  | Block.table _ => true
  | Block.errorReport _ => false

/-- The all-nodes loop of `main` (lines 110-114): for every node, the
`printPodMetrics` table then the `printNodeMetrics` table, threading the
error list through. -/
def mainLoop : String → List NodeInput → List (List (List String)) × List String
  | _, [] => ([], [])
  | requested, ni :: rest =>
    let r := printPodMetricsTable requested ni.node.name ni.podList
    let p := mainLoop requested rest
    (r.1 :: nodeTableData ni.node :: p.1, r.2 ++ p.2)

/-- The body of `main` after setup (lines 100-127): look the requested name up among
the nodes; print either the two tables of the found node or the
two-per-node tables of every node; and, when any errors accumulated,
exactly one error report after all tables. -/
def mainModel (requested : String) (inputs : List NodeInput) : List Block :=
  let r := match inputs.find? (fun ni => ni.node.name == requested) with
    | none => mainLoop requested inputs
    | some ni =>
      let one := printPodMetricsTable requested ni.node.name ni.podList
      ([one.1, nodeTableData ni.node], one.2)
  r.1.map Block.table ++ (if r.2.isEmpty then [] else [Block.errorReport r.2])

/-- The indexed error-printing loop of lines 124-126, carrying the
running index: line `i` (0-based) of the report is `i+1. <error>`. -/
def errorLinesFrom : Nat → List String → List String
  | _, [] => []
  | i, e :: es => (toString (i + 1) ++ ". " ++ e) :: errorLinesFrom (i + 1) es

/-- The numbered error lines of the final report (lines 124-126). -/
def errorLines (errs : List String) : List String :=
  errorLinesFrom 0 errs

/-! ### Helper lemmas -/

/-- Folding `addSample` from any start adds the componentwise sums. -/
theorem foldl_addSample (l : List Sample) (t : Totals) :
    l.foldl addSample t =
      ⟨t.cpuUsage + (l.map Sample.cpuUsage).sum,
       t.cpuRequest + (l.map Sample.cpuRequest).sum,
       t.cpuLimit + (l.map Sample.cpuLimit).sum,
       t.memUsage + (l.map Sample.memUsage).sum,
       t.memRequest + (l.map Sample.memRequest).sum,
       t.memLimit + (l.map Sample.memLimit).sum⟩ := by
  induction l generalizing t with
  | nil => simp
  | cons s l ih => simp [List.foldl_cons, ih, addSample, add_assoc]

/-- The value `nodeTotal` is the componentwise sum over the samples. -/
theorem nodeTotal_eq_sums (l : List Sample) :
    nodeTotal l =
      ⟨(l.map Sample.cpuUsage).sum, (l.map Sample.cpuRequest).sum,
       (l.map Sample.cpuLimit).sum, (l.map Sample.memUsage).sum,
       (l.map Sample.memRequest).sum, (l.map Sample.memLimit).sum⟩ := by
  rw [nodeTotal, foldl_addSample]
  simp [Totals.zero]

/-- The loop `podLoop` distributes over list append, on both components. -/
theorem podLoop_append (l1 l2 : List PodItem) :
    podLoop (l1 ++ l2) =
      ((podLoop l1).1 ++ (podLoop l2).1, (podLoop l1).2 ++ (podLoop l2).2) := by
  induction l1 with
  | nil => simp [podLoop]
  | cons it l ih =>
    rcases h : it.metricsResult with e | cs <;>
      simp [podLoop, h, ih]

/-! ### Claim C2 -/

/-- Claim C2: the totals accumulated by the per-pod loop are exactly the
componentwise sums of the samples (CPU usage/request/limit and memory
usage/request/limit); reordering the samples does not change the result;
the empty sequence yields all-zero totals; and the rendered `Total` row
carries the formatted CPU-usage sum in its CPU Usage cell. -/
theorem c2_totals :
    (∀ samples : List Sample,
      nodeTotal samples =
        ⟨(samples.map Sample.cpuUsage).sum, (samples.map Sample.cpuRequest).sum,
         (samples.map Sample.cpuLimit).sum, (samples.map Sample.memUsage).sum,
         (samples.map Sample.memRequest).sum, (samples.map Sample.memLimit).sum⟩)
    ∧ (∀ s t : List Sample, List.Perm s t → nodeTotal s = nodeTotal t)
    ∧ nodeTotal [] = Totals.zero
    ∧ (∀ samples : List Sample,
        (totalPodsRow (nodeTotal samples)).getD 2 "" =
          fmtMilli (samples.map Sample.cpuUsage).sum) := by
  refine ⟨nodeTotal_eq_sums, ?_, rfl, ?_⟩
  · intro s t h
    rw [nodeTotal_eq_sums, nodeTotal_eq_sums,
      (h.map Sample.cpuUsage).sum_eq, (h.map Sample.cpuRequest).sum_eq,
      (h.map Sample.cpuLimit).sum_eq, (h.map Sample.memUsage).sum_eq,
      (h.map Sample.memRequest).sum_eq, (h.map Sample.memLimit).sum_eq]
  · intro samples
    rw [nodeTotal_eq_sums]
    rfl

/-- Witness for C2 at concrete samples: a transposition of two samples
leaves the totals unchanged. -/
theorem c2_totals_witness :
    nodeTotal [⟨"p", "a", 1, 2, 3, 4, 5, 6, ""⟩, ⟨"q", "b", 7, 8, 9, 10, 11, 12, "true"⟩] =
      nodeTotal [⟨"q", "b", 7, 8, 9, 10, 11, 12, "true"⟩, ⟨"p", "a", 1, 2, 3, 4, 5, 6, ""⟩] :=
  c2_totals.2.1 _ _
    (List.Perm.swap (⟨"q", "b", 7, 8, 9, 10, 11, 12, "true"⟩ : Sample)
      (⟨"p", "a", 1, 2, 3, 4, 5, 6, ""⟩ : Sample) [])

/-! ### Claim C10 -/

/-- Claim C10: a pod-listing error is appended to the error list but the
function does not return or skip the node: the table built is exactly
the one built from the same (possibly empty) returned pod list with no
listing error, so the list's items are read unconditionally and the
listing error merely precedes the per-pod fetch errors. -/
theorem c10_listing_error_continues :
    ∀ (r nm e : String) (items : List PodItem),
      printPodMetricsTable r nm ⟨some e, items⟩ =
        ((printPodMetricsTable r nm ⟨none, items⟩).1,
         e :: (printPodMetricsTable r nm ⟨none, items⟩).2) := by
  intro r nm e items
  simp [printPodMetricsTable]

/-! ### Claim C3 -/

/-- The sample list of the per-pod loop is the concatenation, in pod
listing order, of each successfully fetched pod's matched samples in
container listing order. -/
theorem podLoop_samples_flatMap (items : List PodItem) :
    (podLoop items).1 =
      items.flatMap (fun it =>
        match it.metricsResult with
        | Except.ok cs => podSamples it.pod cs
        | Except.error _ => []) := by
  induction items with
  | nil => rfl
  | cons it rest ih =>
    rcases h : it.metricsResult with e | cs <;>
      simp [podLoop, h, ih]

/-- A usage entry with no same-named container in the pod spec yields no
sample. -/
theorem sampleOf_not_found (pod : Pod) (u : ContainerUsage)
    (h : pod.containers.find? (fun c => c.name == u.name) = none) :
    sampleOf pod u = none := by
  simp [sampleOf, findContainerSpec, h]
  rfl

/-- A usage entry matched by a container spec with a non-empty name
yields exactly the sample built from the usage quantities and that
spec's requests and limits. -/
theorem sampleOf_found (pod : Pod) (u : ContainerUsage) (c : Container)
    (h : pod.containers.find? (fun cc => cc.name == u.name) = some c)
    (hn : c.name ≠ "") :
    sampleOf pod u = some
      ⟨pod.name, u.name, u.cpuMilli, c.requests.cpuVal, c.limits.cpuVal,
       u.memBytes, c.requests.memVal, c.limits.memVal,
       spotLoop pod.tolerations⟩ := by
  simp [sampleOf, findContainerSpec, h, hn]

/-- Counterexample to claim C3 as stated: a usage entry whose (empty)
name does match a spec container nonetheless produces zero rows,
because the code uses the empty container-spec name as its not-found
sentinel. -/
theorem c3_match_counterexample :
    ((⟨"p", "d", [⟨"", ResourceList.empty, ResourceList.empty⟩], []⟩ : Pod).containers.any
        (fun c => c.name == (⟨"", 1, 2⟩ : ContainerUsage).name)) = true
      ∧ sampleOf ⟨"p", "d", [⟨"", ResourceList.empty, ResourceList.empty⟩], []⟩
          ⟨"", 1, 2⟩ = none := by
  constructor
  · rfl
  · rfl

/-- Claim C3 (amended: a matched container must have a non-empty name,
since the code treats the empty name as its not-found sentinel): an
unmatched usage entry produces zero rows and contributes nothing; a
usage entry matched by a non-empty-named spec container produces exactly
one row; samples appear in pod-listing order then container order; and a
match with empty declared requests/limits yields zero-valued
request/limit fields. -/
theorem c3_matching :
    (∀ (pod : Pod) (u : ContainerUsage),
      pod.containers.find? (fun c => c.name == u.name) = none →
      sampleOf pod u = none)
    ∧ (∀ (pod : Pod) (u : ContainerUsage) (us1 us2 : List ContainerUsage),
        pod.containers.find? (fun c => c.name == u.name) = none →
        podSamples pod (us1 ++ u :: us2) = podSamples pod (us1 ++ us2))
    ∧ (∀ (pod : Pod) (u : ContainerUsage) (c : Container),
        pod.containers.find? (fun cc => cc.name == u.name) = some c →
        c.name ≠ "" →
        sampleOf pod u = some
          ⟨pod.name, u.name, u.cpuMilli, c.requests.cpuVal, c.limits.cpuVal,
           u.memBytes, c.requests.memVal, c.limits.memVal,
           spotLoop pod.tolerations⟩)
    ∧ (∀ items : List PodItem,
        (podLoop items).1 =
          items.flatMap (fun it =>
            match it.metricsResult with
            | Except.ok cs => podSamples it.pod cs
            | Except.error _ => []))
    ∧ (∀ (pod : Pod) (u : ContainerUsage) (c : Container),
        pod.containers.find? (fun cc => cc.name == u.name) = some c →
        c.name ≠ "" →
        c.requests = ResourceList.empty → c.limits = ResourceList.empty →
        sampleOf pod u = some
          ⟨pod.name, u.name, u.cpuMilli, 0, 0, u.memBytes, 0, 0,
           spotLoop pod.tolerations⟩) := by
  refine ⟨sampleOf_not_found, ?_, sampleOf_found, podLoop_samples_flatMap, ?_⟩
  · intro pod u us1 us2 h
    simp [podSamples, List.filterMap_append, List.filterMap_cons,
      sampleOf_not_found pod u h]
  · intro pod u c h hn hr hl
    rw [sampleOf_found pod u c h hn, hr, hl]
    rfl

/-- Witness for C3 at concrete inputs: an unmatched entry is dropped and
a matched entry with empty requests/limits yields one zero-valued row. -/
theorem c3_matching_witness :
    sampleOf ⟨"p", "d", [⟨"app", ResourceList.empty, ResourceList.empty⟩], []⟩
        ⟨"ghost", 5, 6⟩ = none
      ∧ sampleOf ⟨"p", "d", [⟨"app", ResourceList.empty, ResourceList.empty⟩], []⟩
          ⟨"app", 5, 6⟩ =
        some ⟨"p", "app", 5, 0, 0, 6, 0, 0, ""⟩ :=
  ⟨c3_matching.1 ⟨"p", "d", [⟨"app", ResourceList.empty, ResourceList.empty⟩], []⟩
      ⟨"ghost", 5, 6⟩ (by rfl),
   c3_matching.2.2.2.2 ⟨"p", "d", [⟨"app", ResourceList.empty, ResourceList.empty⟩], []⟩
      ⟨"app", 5, 6⟩ ⟨"app", ResourceList.empty, ResourceList.empty⟩
      (by rfl) (by decide) rfl rfl⟩

/-! ### Claim C8 -/

/-- The toleration loop computes the any-match flag. -/
theorem spotLoop_eq_any (ts : List Toleration) :
    spotLoop ts =
      if ts.any (fun t => t.key == SpotTolerationKey
          && t.value == SpotTolerationValue)
      then "true" else "" := by
  induction ts with
  | nil => rfl
  | cons t ts ih =>
    by_cases h : (t.key == SpotTolerationKey
        && t.value == SpotTolerationValue) = true
    · simp [spotLoop, h]
    · simp [spotLoop, h, ih]

/-- Claim C8: the Spot Tolerance cell is `"true"` exactly when the pod
declares a toleration whose key and value both equal the fixed spot
marker, and is the empty string otherwise; in the spec's scenario (one
container, usage 6 m CPU and 37480000 bytes, request 100 m / 64 MiB,
limit 1000 m / 1 GiB, no matching toleration) the single detail row ends
with the empty cell and enters the node totals unmodified. -/
theorem c8_spot_toleration :
    (∀ ts : List Toleration,
      spotLoop ts =
        if ts.any (fun t => t.key == SpotTolerationKey
            && t.value == SpotTolerationValue)
        then "true" else "")
    ∧ (∀ ts : List Toleration,
        (spotLoop ts = "true" ↔
          ∃ t ∈ ts, t.key = SpotTolerationKey ∧ t.value = SpotTolerationValue))
    ∧ (∀ ts : List Toleration, spotLoop ts = "true" ∨ spotLoop ts = "")
    ∧ podSamples
        ⟨"helm-controller", "flux",
         [⟨"manager", ⟨some 100, some 67108864⟩, ⟨some 1000, some 1073741824⟩⟩],
         [⟨"other-key", "other-value"⟩]⟩
        [⟨"manager", 6, 37480000⟩] =
        [⟨"helm-controller", "manager", 6, 100, 1000, 37480000, 67108864,
          1073741824, ""⟩]
    ∧ (sampleRow ⟨"helm-controller", "manager", 6, 100, 1000, 37480000,
          67108864, 1073741824, ""⟩).getLast? = some ""
    ∧ nodeTotal [⟨"helm-controller", "manager", 6, 100, 1000, 37480000,
          67108864, 1073741824, ""⟩] =
        ⟨6, 100, 1000, 37480000, 67108864, 1073741824⟩ := by
  refine ⟨spotLoop_eq_any, ?_, ?_, by decide, by decide, by decide⟩
  · intro ts
    rw [spotLoop_eq_any]
    by_cases h : (ts.any (fun t => t.key == SpotTolerationKey
        && t.value == SpotTolerationValue)) = true
    · simp only [h, if_true]
      simp only [List.any_eq_true, Bool.and_eq_true, beq_iff_eq] at h
      simpa using h
    · simp only [h, if_false]
      constructor
      · intro hc
        exact absurd hc (by simp [Bool.not_eq_true] at h; simp [h])
      · intro hex
        exact absurd (by simpa [List.any_eq_true, Bool.and_eq_true, beq_iff_eq]
          using hex) h
  · intro ts
    rw [spotLoop_eq_any]
    by_cases h : (ts.any (fun t => t.key == SpotTolerationKey
        && t.value == SpotTolerationValue)) = true <;> simp [h]

/-! ### Claim C5 -/

/-- The rows a render prints, with the flag value at each print: the
flag at position `i` is the parity of `i`, starting from the given
initial value. -/
theorem renderRows_fst (b : Bool) (td : List (List String)) :
    (renderRows b td).map Prod.fst =
      (List.range td.length).map (fun i => if i % 2 == 0 then b else !b) := by
  induction td generalizing b with
  | nil => rfl
  | cons r rs ih =>
    simp only [renderRows, List.map_cons, List.length_cons,
      List.range_succ_eq_map, List.map_map, ih (!b)]
    congr 1
    apply List.map_congr_left
    intro i _
    simp only [Function.comp_apply]
    by_cases h : i % 2 = 0
    · have h1 : (i + 1) % 2 = 1 := by omega
      simp [h, h1, Nat.succ_eq_add_one]
    · have h0 : i % 2 = 1 := by omega
      have h1 : (i + 1) % 2 = 0 := by omega
      simp [h0, h1, Nat.succ_eq_add_one]

/-- A render prints the rows themselves unchanged and in order. -/
theorem renderRows_snd (b : Bool) (td : List (List String)) :
    (renderRows b td).map Prod.snd = td := by
  induction td generalizing b with
  | nil => rfl
  | cons r rs ih => simp [renderRows, ih]

/-- Counterexample to claim C5 as stated: on a table with a header and
one data row, the code's flag sequence (toggle after every printed row,
header included) differs from the spec's flag sequence (toggle after
data rows only): the code prints the first data row with the toggled
flag, the spec says it keeps the initial flag. -/
theorem c5_toggle_counterexample :
    tableRowFlags [["h"], ["r"]] ≠ specRowFlags [["h"], ["r"]] := by
  decide

/-- Claim C5 (amended: the boolean toggles after every printed row, the
header row included, so the first data row is already printed with the
toggled value): one render call prints the rows unchanged, with flag
values alternating by row index starting from `true` — the initial value
a fresh `loadFunctions` call always installs, so the state is local to
one table render and resets for each new table. -/
theorem c5_alternation :
    ∀ td : List (List String),
      (tableRowFlags td).map Prod.snd = td
      ∧ (tableRowFlags td).map Prod.fst =
          (List.range td.length).map (fun i => i % 2 == 0) := by
  intro td
  refine ⟨renderRows_snd true td, ?_⟩
  rw [tableRowFlags, renderRows_fst]
  apply List.map_congr_left
  intro i _
  by_cases h : i % 2 == 0 <;> simp [h]

/-! ### Claim C4 -/

/-- The width scan preserves the number of columns. -/
theorem updateWidths_length (ws : List Nat) (row : List String) :
    (updateWidths ws row).length = ws.length := by
  induction ws generalizing row with
  | nil => cases row <;> rfl
  | cons w ws ih => cases row <;> simp [updateWidths, ih]

/-- One scan step raises each width to the cell's length. -/
theorem updateWidths_getD :
    ∀ (ws : List Nat) (row : List String) (i : Nat), i < ws.length →
      (updateWidths ws row).getD i 0 =
        max (ws.getD i 0) ((row.getD i "").length)
  | [], _, _, h => absurd h (by simp)
  | _ :: _, [], i, _ => by
    cases i <;> simp [updateWidths]
  | _ :: _, _ :: _, 0, _ => by
    simp [updateWidths]
  | w :: ws, c :: cs, i + 1, h => by
    simpa [updateWidths] using
      updateWidths_getD ws cs i (by simpa using h)

/-- Shifting a max into the start of a `foldl max`. -/
theorem foldl_max_shift (ls : List Nat) (a b : Nat) :
    ls.foldl max (max a b) = max a (ls.foldl max b) := by
  induction ls generalizing b with
  | nil => rfl
  | cons c ls ih => simp [List.foldl_cons, Nat.max_assoc, ih]

/-- The seed of a `foldl max` bounds the result from below. -/
theorem init_le_foldl_max (ls : List Nat) (a : Nat) :
    a ≤ ls.foldl max a := by
  induction ls generalizing a with
  | nil => exact Nat.le_refl a
  | cons c ls ih =>
    exact Nat.le_trans (Nat.le_max_left a c) (ih (max a c))

/-- Every member of the list bounds a `foldl max` from below. -/
theorem mem_le_foldl_max (ls : List Nat) (a x : Nat) :
    x ∈ ls → x ≤ ls.foldl max a := by
  induction ls generalizing a with
  | nil => intro h; cases h
  | cons c ls ih =>
    intro h
    rcases List.mem_cons.mp h with rfl | hm
    · exact Nat.le_trans (Nat.le_max_right a x) (init_le_foldl_max ls (max a x))
    · exact ih (max a c) hm

/-- The width scan over all rows takes each width to the maximum of the
seed and the column's cell lengths. -/
theorem foldl_updateWidths_getD :
    ∀ (rows : List (List String)) (ws : List Nat) (i : Nat),
      i < ws.length →
      (rows.foldl updateWidths ws).getD i 0 =
        max (ws.getD i 0)
          ((rows.map (fun r => (r.getD i "").length)).foldl max 0) := by
  intro rows
  induction rows with
  | nil => simp
  | cons r rows ih =>
    intro ws i h
    rw [List.foldl_cons,
      ih (updateWidths ws r) i (by rw [updateWidths_length]; exact h),
      updateWidths_getD ws r i h, List.map_cons, List.foldl_cons,
      Nat.zero_max, ← Nat.max_zero ((r.getD i "").length),
      foldl_max_shift, Nat.max_assoc]
    simp [Nat.max_zero]

/-- The widths `columnWidths` computes are exactly the per-column maxima (header row
included). -/
theorem columnWidths_getD (hdr : List String) (rest : List (List String))
    (i : Nat) (h : i < hdr.length) :
    (columnWidths (hdr :: rest)).getD i 0 = maxColLen (hdr :: rest) i := by
  rw [columnWidths, maxColLen,
    foldl_updateWidths_getD (hdr :: rest) (List.replicate hdr.length 0) i
      (by simpa using h)]
  have h0 : (List.replicate hdr.length (0 : Nat)).getD i 0 = 0 := by
    rw [List.getD_eq_getElem?_getD, List.getElem?_replicate]
    simp [h]
  rw [h0, Nat.zero_max]

/-- The padded cell has the column width when the cell fits. -/
theorem padRight_length (s : String) (w : Nat) :
    (padRight s w).length = max w s.length := by
  rw [padRight, String.length_append]
  have : (String.mk (List.replicate (w - s.length) ' ')).length
      = w - s.length := by
    show (List.replicate (w - s.length) ' ').length = w - s.length
    exact List.length_replicate _ _
  omega

/-- A printed cell block is the padded cell between two single spaces. -/
theorem cellBlock_length (w : Nat) (c : String) :
    (cellBlock w c).length = max w c.length + 2 := by
  have hs : (" " : String).length = 1 := by decide
  rw [cellBlock, String.length_append, String.length_append,
    padRight_length, hs]
  omega

/-- A border segment is `w + 2` dashes. -/
theorem borderSeg_length (w : Nat) :
    (borderSeg w).length = w + 2 := by
  show (List.replicate (w + 2) '─').length = w + 2
  exact List.length_replicate _ _

/-- Claim C4: for every (rectangular, as the program builds them) table,
the computed width of column `i` is the maximum cell length over all
rows, header included; the visible width column `i` occupies is that
maximum plus 2 padding characters, and it is the same in every data row
(header included) and in every border segment — all computed from the
single `columnWidths` pass performed before anything is printed. -/
theorem c4_column_widths (hdr : List String) (rest : List (List String))
    (i : Nat) (hi : i < hdr.length)
    (_hrect : ∀ row ∈ hdr :: rest, row.length = hdr.length) :
    (columnWidths (hdr :: rest)).getD i 0 = maxColLen (hdr :: rest) i
    ∧ (∀ row ∈ hdr :: rest,
        (cellBlock ((columnWidths (hdr :: rest)).getD i 0)
            (row.getD i "")).length = maxColLen (hdr :: rest) i + 2)
    ∧ (borderSeg ((columnWidths (hdr :: rest)).getD i 0)).length
        = maxColLen (hdr :: rest) i + 2 := by
  have hw := columnWidths_getD hdr rest i hi
  refine ⟨hw, ?_, ?_⟩
  · intro row hrow
    rw [hw, cellBlock_length]
    have hle : (row.getD i "").length ≤ maxColLen (hdr :: rest) i := by
      apply mem_le_foldl_max
      exact List.mem_map_of_mem (fun r => (r.getD i "").length) hrow
    omega
  · rw [hw, borderSeg_length]

/-- Witness for C4 at a concrete table: a 2-column table whose longest
cells sit in different rows. -/
theorem c4_column_widths_witness :
    (columnWidths [["Node", "CPU"], ["aks-node-1", "8"]]).getD 0 0 =
        maxColLen [["Node", "CPU"], ["aks-node-1", "8"]] 0
      ∧ (∀ row ∈ [["Node", "CPU"], ["aks-node-1", "8"]],
          (cellBlock ((columnWidths [["Node", "CPU"], ["aks-node-1", "8"]]).getD 0 0)
              (row.getD 0 "")).length =
            maxColLen [["Node", "CPU"], ["aks-node-1", "8"]] 0 + 2)
      ∧ (borderSeg ((columnWidths [["Node", "CPU"], ["aks-node-1", "8"]]).getD 0 0)).length =
          maxColLen [["Node", "CPU"], ["aks-node-1", "8"]] 0 + 2 :=
  c4_column_widths ["Node", "CPU"] [["aks-node-1", "8"]] 0 (by decide)
    (by decide)

/-! ### Claim C6 -/

/-- The all-nodes loop emits, for every node in order, the
`printPodMetrics` table and then the node summary table. -/
theorem mainLoop_tables (r : String) (inputs : List NodeInput) :
    (mainLoop r inputs).1 =
      inputs.flatMap (fun ni =>
        [(printPodMetricsTable r ni.node.name ni.podList).1,
         nodeTableData ni.node]) := by
  induction inputs with
  | nil => rfl
  | cons ni rest ih => simp [mainLoop, ih]

/-- Claim C6: the shape of the pod table is driven solely by whether a
node name was requested (its header is the condensed one exactly when no
name was requested); with a matching name requested the program prints
the detailed table and summary of that node only; with no name requested
it prints the condensed totals table and the summary table for every
node. -/
theorem c6_mode_selection :
    (∀ (r nm : String) (pl : PodListResult),
      (printPodMetricsTable r nm pl).1.head? =
        some (if r == "" then condensedHeader else podHeader nm))
    ∧ (∀ (r : String) (inputs : List NodeInput) (ni : NodeInput),
        inputs.find? (fun x => x.node.name == r) = some ni →
        mainModel r inputs =
          Block.table (printPodMetricsTable r ni.node.name ni.podList).1 ::
          Block.table (nodeTableData ni.node) ::
          (if (printPodMetricsTable r ni.node.name ni.podList).2.isEmpty
           then []
           else [Block.errorReport
             (printPodMetricsTable r ni.node.name ni.podList).2]))
    ∧ (∀ inputs : List NodeInput,
        inputs.find? (fun x => x.node.name == "") = none →
        mainModel "" inputs =
          (inputs.flatMap (fun ni =>
            [(printPodMetricsTable "" ni.node.name ni.podList).1,
             nodeTableData ni.node])).map Block.table ++
          (if (mainLoop "" inputs).2.isEmpty then []
           else [Block.errorReport (mainLoop "" inputs).2])) := by
  refine ⟨?_, ?_, ?_⟩
  · intro r nm pl
    by_cases h : (r == "") = true <;> simp [printPodMetricsTable, h]
  · intro r inputs ni h
    simp [mainModel, h]
  · intro inputs h
    simp [mainModel, h, mainLoop_tables]

/-- Witness for C6: a single-node cluster queried by its node's name. -/
theorem c6_mode_selection_witness :
    mainModel "A" [⟨⟨"A", 8000, 7820, 34359738368, 31138512896⟩, ⟨none, []⟩⟩] =
      Block.table (printPodMetricsTable "A" "A" ⟨none, []⟩).1 ::
      Block.table (nodeTableData ⟨"A", 8000, 7820, 34359738368, 31138512896⟩) ::
      (if (printPodMetricsTable "A" "A" ⟨none, []⟩).2.isEmpty
       then []
       else [Block.errorReport (printPodMetricsTable "A" "A" ⟨none, []⟩).2]) :=
  c6_mode_selection.2.1 "A"
    [⟨⟨"A", 8000, 7820, 34359738368, 31138512896⟩, ⟨none, []⟩⟩]
    ⟨⟨"A", 8000, 7820, 34359738368, 31138512896⟩, ⟨none, []⟩⟩ rfl

/-! ### Claim C7 -/

/-- Inserting a pod whose metrics fetch failed changes no samples and
splices its error into the error list at its position. -/
theorem podLoop_error_insert (l1 l2 : List PodItem) (pod : Pod) (e : String) :
    (podLoop (l1 ++ ⟨pod, Except.error e⟩ :: l2)).1 = (podLoop (l1 ++ l2)).1
    ∧ (podLoop (l1 ++ ⟨pod, Except.error e⟩ :: l2)).2
        = (podLoop l1).2 ++ e :: (podLoop l2).2 := by
  constructor
  · rw [podLoop_append, podLoop_append]
    simp [podLoop]
  · rw [podLoop_append]
    simp [podLoop]

/-- Numbered error lines, with the running start index made explicit. -/
theorem errorLinesFrom_getD :
    ∀ (errs : List String) (n k : Nat), k < errs.length →
      (errorLinesFrom n errs).getD k "" =
        toString (n + k + 1) ++ ". " ++ errs.getD k ""
  | [], _, k, h => absurd h (by simp)
  | e :: es, n, 0, _ => by simp [errorLinesFrom]
  | e :: es, n, k + 1, h => by
    have harith : n + 1 + k + 1 = n + (k + 1) + 1 := by omega
    have hrec := errorLinesFrom_getD es (n + 1) k (by simpa using h)
    simpa [errorLinesFrom, harith] using hrec

/-- Blocks arising from tables never count as error reports. -/
theorem filter_table_blocks (ts : List (List (List String))) :
    (ts.map Block.table).filter (fun b => !b.isTable) = [] := by
  induction ts with
  | nil => rfl
  | cons t ts ih => simp [Block.isTable, ih]

/-- Claim C7: a pod whose usage-metrics fetch fails contributes zero
samples (hence zero rows and zero amounts in the totals) while its error
is spliced into the error list and the remaining pods are still
processed; every node still yields its two tables; the error report, when
nonempty, is a single block after all tables; and its lines are numbered
`k+1. <error>`. -/
theorem c7_partial_failure :
    (∀ (l1 l2 : List PodItem) (pod : Pod) (e : String),
      (podLoop (l1 ++ ⟨pod, Except.error e⟩ :: l2)).1 = (podLoop (l1 ++ l2)).1
      ∧ (podLoop (l1 ++ ⟨pod, Except.error e⟩ :: l2)).2
          = (podLoop l1).2 ++ e :: (podLoop l2).2)
    ∧ (∀ (r : String) (inputs : List NodeInput),
        (mainLoop r inputs).1.length = 2 * inputs.length)
    ∧ (∀ (r : String) (inputs : List NodeInput),
        inputs.find? (fun x => x.node.name == r) = none →
        (mainLoop r inputs).2 ≠ [] →
        mainModel r inputs =
          (mainLoop r inputs).1.map Block.table
            ++ [Block.errorReport (mainLoop r inputs).2])
    ∧ (∀ (r : String) (inputs : List NodeInput),
        ((mainModel r inputs).filter (fun b => !b.isTable)).length ≤ 1)
    ∧ (∀ (errs : List String) (k : Nat), k < errs.length →
        (errorLines errs).getD k "" =
          toString (k + 1) ++ ". " ++ errs.getD k "") := by
  refine ⟨podLoop_error_insert, ?_, ?_, ?_, ?_⟩
  · intro r inputs
    induction inputs with
    | nil => rfl
    | cons ni rest ih =>
      simp [mainLoop, ih]
      omega
  · intro r inputs h hne
    have hne' : (mainLoop r inputs).2.isEmpty = false := by
      cases hl : (mainLoop r inputs).2 with
      | nil => exact absurd hl hne
      | cons a l => rfl
    simp [mainModel, h, hne']
  · intro r inputs
    rcases h : inputs.find? (fun x => x.node.name == r) with _ | ni <;>
      · simp only [mainModel, h, List.filter_append, filter_table_blocks,
          List.nil_append]
        split <;> simp [Block.isTable]
  · intro errs k h
    have := errorLinesFrom_getD errs 0 k h
    simpa [errorLines] using this

/-- Witness for C7: one unmatched requested name, one node whose only
pod fails its metrics fetch — the report still renders and ends with the
numbered error. -/
theorem c7_partial_failure_witness :
    mainModel "B" [⟨⟨"A", 1, 1, 1, 1⟩,
        ⟨none, [⟨⟨"p", "d", [], []⟩, Except.error "boom"⟩]⟩⟩] =
      (mainLoop "B" [⟨⟨"A", 1, 1, 1, 1⟩,
          ⟨none, [⟨⟨"p", "d", [], []⟩, Except.error "boom"⟩]⟩⟩]).1.map Block.table
        ++ [Block.errorReport (mainLoop "B" [⟨⟨"A", 1, 1, 1, 1⟩,
            ⟨none, [⟨⟨"p", "d", [], []⟩, Except.error "boom"⟩]⟩⟩]).2]
      ∧ (errorLines ["boom"]).getD 0 "" = toString (0 + 1) ++ ". " ++ ["boom"].getD 0 "" :=
  ⟨c7_partial_failure.2.2.1 "B" [⟨⟨"A", 1, 1, 1, 1⟩,
      ⟨none, [⟨⟨"p", "d", [], []⟩, Except.error "boom"⟩]⟩⟩] rfl (by decide),
   c7_partial_failure.2.2.2.2 ["boom"] 0 (by decide)⟩

/-! ### Claim C1 -/

/-- The division loop lands on the unit index `k` characterised by
`1024 ^ k ≤ q < 1024 ^ (k + 1)` (for `k` within the fuel), and the
mantissa is `q / 1024 ^ k`. -/
theorem sizeLoop_eq :
    ∀ (k fuel : Nat) (q : ℚ), k ≤ fuel →
      (1024 : ℚ) ^ k ≤ q → q < 1024 ^ (k + 1) →
      sizeLoop fuel q = (q / 1024 ^ k, k)
  | 0, fuel, q, _, _, h2 => by
    cases fuel with
    | zero => simp [sizeLoop]
    | succ f =>
      have hlt : ¬ (1024 : ℚ) ≤ q := not_le.mpr (by simpa using h2)
      simp [sizeLoop, hlt]
  | k + 1, fuel, q, hkf, h1, h2 => by
    cases fuel with
    | zero => omega
    | succ f =>
      have h1024 : (0 : ℚ) < 1024 := by norm_num
      have hge : (1024 : ℚ) ≤ q := by
        refine le_trans ?_ h1
        calc (1024 : ℚ) = 1024 ^ 1 := (pow_one _).symm
          _ ≤ 1024 ^ (k + 1) := by
              exact pow_le_pow_right₀ (by norm_num) (by omega)
      have hd1 : (1024 : ℚ) ^ k ≤ q / 1024 := by
        rw [le_div_iff₀ h1024, ← pow_succ]
        exact h1
      have hd2 : q / 1024 < 1024 ^ (k + 1) := by
        rw [div_lt_iff₀ h1024, ← pow_succ]
        exact h2
      have hrec := sizeLoop_eq k f (q / 1024) (by omega) hd1 hd2
      have hdd : q / 1024 / 1024 ^ k = q / 1024 ^ (k + 1) := by
        rw [div_div, ← pow_succ']
      simp [sizeLoop, hge, hrec, hdd]

unseal Rat.mul Rat.inv Rat.add Rat.sub in
/-- Counterexample to claim C1 as stated: the summary row of the spec's
scenario node (capacity 8000 m / 32 GiB raw bytes, allocatable 7820 m /
29 GiB raw bytes) does not carry two-decimal memory cells — the
formatter is Go `%.4g`, which drops the trailing zeros. -/
theorem c1_two_decimal_counterexample :
    nodeRow ⟨"A", 8000, 7820, 34359738368, 31138512896⟩ ≠
      ["A", "8000 m", "7820 m", "32.00GiB", "29.00GiB"] := by
  decide

unseal Rat.mul Rat.inv Rat.add Rat.sub in
/-- Claim C1 (amended: the numeric part is printed with Go `%.4g` — at
most 4 significant digits, trailing zeros removed — not with two-decimal
precision, so the scenario row reads `32GiB`/`29GiB`): the formatter
picks the largest binary unit whose mantissa is at least 1 (and below
1024), formats the mantissa with `%.4g` and appends the unit, falling
back to `B` below 1024. -/
theorem c1_bytes_format :
    (∀ (q : ℚ) (k : Nat), k ≤ 8 →
      (1024 : ℚ) ^ k ≤ q → q < 1024 ^ (k + 1) →
      getSizeAndUnit q = (q / 1024 ^ k, k)
      ∧ BytesSize q = formatG4 (q / 1024 ^ k) ++ binaryAbbrs.getD k ""
      ∧ 1 ≤ q / 1024 ^ k ∧ q / 1024 ^ k < 1024)
    ∧ (∀ q : ℚ, 0 ≤ q → q < 1024 →
        getSizeAndUnit q = (q, 0) ∧ BytesSize q = formatG4 q ++ "B")
    ∧ nodeRow ⟨"A", 8000, 7820, 34359738368, 31138512896⟩ =
        ["A", "8000 m", "7820 m", "32GiB", "29GiB"] := by
  have h1024 : (0 : ℚ) < 1024 := by norm_num
  refine ⟨?_, ?_, by decide⟩
  · intro q k hk h1 h2
    have hu : getSizeAndUnit q = (q / 1024 ^ k, k) :=
      sizeLoop_eq k 8 q hk h1 h2
    refine ⟨hu, ?_, ?_, ?_⟩
    · rw [BytesSize, hu]
    · rw [le_div_iff₀ (by positivity)]
      simpa using h1
    · rw [div_lt_iff₀ (by positivity), ← pow_succ']
      exact lt_of_lt_of_le h2 (pow_le_pow_right₀ (by norm_num) (by omega))
  · intro q h0 hlt
    have hu : getSizeAndUnit q = (q, 0) := by
      have hn : ¬ (1024 : ℚ) ≤ q := not_le.mpr hlt
      simp [getSizeAndUnit, sizeLoop, hn]
    refine ⟨hu, ?_⟩
    rw [BytesSize, hu]
    rfl

/-- Witness for C1 at the scenario capacity (32 GiB raw bytes, unit
index 3 = GiB). -/
theorem c1_bytes_format_witness :
    getSizeAndUnit (34359738368 : ℚ) = ((34359738368 : ℚ) / 1024 ^ 3, 3)
      ∧ BytesSize (34359738368 : ℚ) =
          formatG4 ((34359738368 : ℚ) / 1024 ^ 3) ++ binaryAbbrs.getD 3 ""
      ∧ 1 ≤ (34359738368 : ℚ) / 1024 ^ 3
      ∧ (34359738368 : ℚ) / 1024 ^ 3 < 1024 :=
  c1_bytes_format.1 34359738368 3 (by omega) (by norm_num) (by norm_num)

/-! ### Claim C9 -/

/-- Counterexample to claim C9 as stated: the first header cell of the
detail table is not `"Pod"` but the node-specific `"Pods on <node>"`
(and, likewise, the condensed table's first header cell is
`"Pod total capacity on Node"`, not `"Node"`). -/
theorem c9_header_counterexample :
    podHeader "A" ≠
      ["Pod", "Container", "CPU Usage", "CPU Request", "CPU Limit",
       "Mem Usage", "Mem Request", "Mem Limit", "Spot Tolerance"]
      ∧ condensedHeader ≠
        ["Node", "CPU Usage", "CPU Request", "Mem Usage", "Mem Request"] := by
  decide

/-- Claim C9 (amended: the detail header's first label is
`"Pods on <node>"` and the condensed header's first label is
`"Pod total capacity on Node"`; the remaining labels are as claimed):
the detail table is its 9-label header, the data rows, and a trailing
`Total` row; the condensed table is its 5-label header and the node
total row; and every row of either table has exactly its header's cell
count. -/
theorem c9_table_shapes :
    (∀ (r nm : String) (pl : PodListResult), r ≠ "" →
      (printPodMetricsTable r nm pl).1 =
        podHeader nm ::
          ((podLoop pl.items).1.map sampleRow
            ++ [totalPodsRow (nodeTotal (podLoop pl.items).1)]))
    ∧ (∀ (nm : String) (pl : PodListResult),
        (printPodMetricsTable "" nm pl).1 =
          [condensedHeader,
           condensedTotalRow nm (nodeTotal (podLoop pl.items).1)])
    ∧ (∀ (r nm : String) (pl : PodListResult) (row : List String),
        row ∈ (printPodMetricsTable r nm pl).1 →
        row.length = if r == "" then 5 else 9) := by
  refine ⟨?_, ?_, ?_⟩
  · intro r nm pl h
    have hb : (r == "") = false := beq_eq_false_iff_ne.mpr h
    simp [printPodMetricsTable, hb]
  · intro nm pl
    simp [printPodMetricsTable]
  · intro r nm pl row hrow
    by_cases hb : (r == "") = true
    · simp only [printPodMetricsTable, hb, if_true] at hrow
      have hd : row = condensedHeader
          ∨ row = condensedTotalRow nm (nodeTotal (podLoop pl.items).1) := by
        simpa using hrow
      simp only [hb, if_true]
      rcases hd with rfl | rfl <;> rfl
    · have hb' : (r == "") = false := by
        cases hx : (r == "") with
        | true => exact absurd hx hb
        | false => rfl
      simp only [printPodMetricsTable, hb', Bool.false_eq_true, if_false]
        at hrow
      simp only [hb', Bool.false_eq_true, if_false]
      rcases List.mem_cons.mp hrow with rfl | hrow2
      · rfl
      · rcases List.mem_append.mp hrow2 with hm | hs
        · rcases List.mem_map.mp hm with ⟨s, _, rfl⟩
          rfl
        · have heq : row = totalPodsRow (nodeTotal (podLoop pl.items).1) := by
            simpa using hs
          subst heq
          rfl

/-- Witness for C9: the detail table of a node with no pods is the
header plus the zero `Total` row, and its header row has 9 cells. -/
theorem c9_table_shapes_witness :
    (printPodMetricsTable "A" "A" ⟨none, []⟩).1 =
      podHeader "A" ::
        ((podLoop ([] : List PodItem)).1.map sampleRow
          ++ [totalPodsRow (nodeTotal (podLoop ([] : List PodItem)).1)])
      ∧ (podHeader "A").length = if ("A" == "") = true then 5 else 9 :=
  ⟨c9_table_shapes.1 "A" "A" ⟨none, []⟩ (by decide),
   by
    have := c9_table_shapes.2.2 "A" "A" ⟨none, []⟩ (podHeader "A")
      (by decide)
    simpa using this⟩

end Ktop
